import Mathlib

/- Shallow embedding of the SSEI dataset / transform pipeline:
   `src/simulation/data/dataset.py`, `src/digit/digit_dataset.py` and
   `src/simulation/transforms/noise.py`.

   NumPy arrays become Lean lists, images are an abstract type parameter
   where only their identity matters and rational pixel grids where pixel
   values matter, and the random shuffles are modelled by quantifying over
   the already-permuted input arrays.  Fallible lookups return `Except`. -/

/-- Inner loop of `apply_transforms`: `for transform in transforms: img =
transform.apply(img)`, i.e. a left fold of one transform sequence over an
image. -/
def applySeq {α : Type} (ts : List (α → α)) (x : α) : α :=
  ts.foldl (fun img t => t img) x

/-- Embedding of `np.tile(ys, m)`: `m` concatenated copies of `ys`. -/
def tile {α : Type} (m : Nat) (ys : List α) : List α :=
  (List.replicate m ys).flatten

/-- Embedding of `np.flatnonzero(ys == c)`: the ordered list of positions of
`ys` holding the value `c`. -/
def flatnonzero (ys : List Int) (c : Int) : List Nat :=
  (ys.enum.filter (fun p => p.2 == c)).map Prod.fst

/-- Index construction used throughout `dataset.py`, e.g.
`{i: np.flatnonzero(train_y == i) for i in classes}`: an association list
from each class id to the positions holding it. -/
def mkIndex (ys : List Int) (classes : List Int) : List (Int × List Nat) :=
  classes.map (fun c => (c, flatnonzero ys c))

/-- Python dict lookup `index[c]` on the per-class index, `none` modelling a
`KeyError`. -/
def lookupIdx (idx : List (Int × List Nat)) (c : Int) : Option (List Nat) :=
  (idx.find? (fun p => p.1 == c)).map Prod.snd

/-- Boolean-mask selection `xs[mask], ys[mask]` with `mask = keep(ys)`, as in
`FilteredMNIST.__init__` (`filtered = self.train_y > 0` and then
`self.train_x = self.train_x[filtered]` etc.). -/
def maskFilter {α : Type} (xs : List α) (ys : List Int) (keep : Int → Bool) :
    List α × List Int :=
  let kept := (xs.zip ys).filter (fun p => keep p.2)
  (kept.map Prod.fst, kept.map Prod.snd)

/-- State of `CharacterDataset` (src/simulation/data/dataset.py lines
91-112): the four parallel containers, the per-class position index (a
Python dict, modelled as an association list) and the queued transform
sequences. -/
structure CharacterDataset (α : Type) where
  resolution : Nat
  train_x : List α
  train_y : List Int
  test_x : List α
  test_y : List Int
  train_indices_by_number : List (Int × List Nat)
  test_indices_by_number : List (Int × List Nat)
  transforms : List (List (α → α))

/-- Embedding of `CharacterDataset.apply_transforms` (simulation module
lines 161-219; digit module lines 86-119 is identical except that it has no
`clear` parameter).  An empty queue returns immediately.  Otherwise a new
array of `(int(keep) + k) * n` rows is allocated; rows `0..n-1` receive the
originals when `keep`, and block `i` receives the images of transform
sequence `i` — equivalent to list concatenation since every block has
exactly `n` rows.  Labels are `np.tile`d by the same factor.  The per-class
index fields are not touched by the source, and the queue is cleared when
`clear`. -/
def CharacterDataset.apply_transforms {α : Type} (d : CharacterDataset α)
    (keep : Bool) (clear : Bool) : CharacterDataset α :=
  if d.transforms.isEmpty then d
  else
    let reps := (if keep then 1 else 0) + d.transforms.length
    { d with
      train_x := (if keep then d.train_x else []) ++
        (d.transforms.map (fun ts => d.train_x.map (applySeq ts))).flatten,
      test_x := (if keep then d.test_x else []) ++
        (d.transforms.map (fun ts => d.test_x.map (applySeq ts))).flatten,
      train_y := tile reps d.train_y,
      test_y := tile reps d.test_y,
      transforms := if clear then [] else d.transforms }

/-- Embedding of `CharacterDataset._split` (simulation module lines 454-474,
digit module lines 157-172): `train_count = int(all_count * 0.9)` — float
truncation, which equals `9 * n / 10` in exact arithmetic — and the first
`train_count` entries of the (optionally shuffled, modelled as
pre-permuted) arrays become the train split, the rest the test split. -/
def CharacterDataset.split {α : Type} (d : CharacterDataset α)
    (digits : List α) (labels : List Int) : CharacterDataset α :=
  let train_count := 9 * digits.length / 10
  { d with
    train_x := digits.take train_count,
    train_y := labels.take train_count,
    test_x := digits.drop train_count,
    test_y := labels.drop train_count }

/-- Embedding of `FilteredMNIST.__init__` in the simulation module (lines
558-570): drop every class-0 sample from both splits, keep the remaining
labels unchanged, rebuild both per-class indices over classes 1..9. -/
def FilteredMNIST {α : Type} (d : CharacterDataset α) : CharacterDataset α :=
  let tr := maskFilter d.train_x d.train_y (fun y => decide (0 < y))
  let te := maskFilter d.test_x d.test_y (fun y => decide (0 < y))
  { d with
    train_x := tr.1, train_y := tr.2, test_x := te.1, test_y := te.2,
    train_indices_by_number := mkIndex tr.2 ((List.range' 1 9).map Int.ofNat),
    test_indices_by_number := mkIndex te.2 ((List.range' 1 9).map Int.ofNat) }

/-- Arrays of a digit-module dataset whose per-class index is a plain Python
list (src/digit/digit_dataset.py keeps `train_indices_by_number` as a
`List[np.ndarray]`). -/
structure ListIndexedArrays (α : Type) where
  train_x : List α
  train_y : List Int
  test_x : List α
  test_y : List Int
  train_indices_by_number : List (List Nat)
  test_indices_by_number : List (List Nat)

/-- Embedding of `FilteredMNIST.__init__` in the digit module (lines
233-248): the same class-0 filtering and index rebuild over 1..9, but then
`self.train_y -= 1` / `self.test_y -= 1` — every remaining label is
decremented by one after the index has been built from the unshifted
labels. -/
def digitFilteredMNIST {α : Type} (d : CharacterDataset α) : ListIndexedArrays α :=
  let tr := maskFilter d.train_x d.train_y (fun y => decide (0 < y))
  let te := maskFilter d.test_x d.test_y (fun y => decide (0 < y))
  { train_x := tr.1,
    train_y := tr.2.map (fun y => y - 1),
    test_x := te.1,
    test_y := te.2.map (fun y => y - 1),
    train_indices_by_number := (List.range' 1 9).map (fun i => flatnonzero tr.2 (Int.ofNat i)),
    test_indices_by_number := (List.range' 1 9).map (fun i => flatnonzero te.2 (Int.ofNat i)) }

/-- Error kinds raised by the sample-lookup methods: `KeyError` for a class
id missing from the index dict, `IndexError` for a positional access out of
range, `ValueError` for the explicit `raise ValueError` guard. -/
inductive PyErr : Type
  | keyError
  | indexError
  | valueError
  deriving DecidableEq

/-- Equality of lookup results is decidable, so concrete lookups can be
evaluated. -/
instance {ε α : Type} [DecidableEq ε] [DecidableEq α] : DecidableEq (Except ε α)
  | Except.ok x, Except.ok y =>
    match decEq x y with
    | isTrue h => isTrue (congrArg Except.ok h)
    | isFalse h => isFalse (fun hh => h (Except.ok.inj hh))
  | Except.error x, Except.error y =>
    match decEq x y with
    | isTrue h => isTrue (congrArg Except.error h)
    | isFalse h => isFalse (fun hh => h (Except.error.inj hh))
  | Except.ok _, Except.error _ => isFalse (fun hh => Except.noConfusion hh)
  | Except.error _, Except.ok _ => isFalse (fun hh => Except.noConfusion hh)

/-- Embedding of `CharacterDataset.get_ordered` (simulation module lines
476-488): `self.train_x[self.train_indices_by_number[digit][index]]`; a
missing class key raises `KeyError`, an out-of-range `index` (or position)
raises `IndexError`. -/
def CharacterDataset.get_ordered {α : Type} (d : CharacterDataset α)
    (digit : Int) (index : Nat) : Except PyErr α :=
  match lookupIdx d.train_indices_by_number digit with
  | none => Except.error PyErr.keyError
  | some l =>
    match l.get? index with
    | none => Except.error PyErr.indexError
    | some pos =>
      match d.train_x.get? pos with
      | none => Except.error PyErr.indexError
      | some x => Except.ok x

/-- Candidate position list that `FilteredMNIST.get_random` in the
simulation module (lines 572-575) draws from:
`np.random.choice(self.train_indices_by_number[digit - 1])` behind a
`ValueError` guard for digit 0.  The random draw itself is uniform over the
returned list. -/
def filteredGetRandomPositions {α : Type} (d : CharacterDataset α)
    (digit : Int) : Except PyErr (List Nat) :=
  if digit == 0 then Except.error PyErr.valueError
  else
    match lookupIdx d.train_indices_by_number (digit - 1) with
    | none => Except.error PyErr.keyError
    | some l => Except.ok l

/-- Numpy slice assignment `arr[off:off+len(vals)] = vals`. -/
def writeSlice {α : Type} (arr : List α) (off : Nat) (vals : List α) : List α :=
  arr.take off ++ vals ++ arr.drop (off + vals.length)

/-- Copy each block into `target` at a running offset, as in the copy loop
of `ConcatDataset.__init__`. -/
def fillAtOffsets {α : Type} (target : List α) (blocks : List (List α)) : List α :=
  (blocks.foldl (fun acc blk => (writeSlice acc.1 acc.2 blk, acc.2 + blk.length))
    (target, 0)).1

/-- The four containers built by a `ConcatDataset` constructor. -/
structure ConcatArrays (α : Type) where
  train_x : List α
  train_y : List Int
  test_x : List α
  test_y : List Int

/-- Embedding of `ConcatDataset.__init__` of the digit module (lines
392-426): the combined `train_size` and `test_size` are summed, but the
allocation lines 409-412 create ALL four output containers with
`train_size` rows — `self.test_x = np.empty((train_size, res, res), ...)`
and `self.test_y = np.empty(train_size, ...)` — before the copy loop writes
each input's data at a running offset.  The `np.empty` garbage contents are
modelled as `default`/`0`; only the allocated length matters here. -/
def digitConcatDataset {α : Type} [Inhabited α]
    (ds : List (CharacterDataset α)) : ConcatArrays α :=
  let train_size := (ds.map (fun d => d.train_x.length)).sum
  { train_x := fillAtOffsets (List.replicate train_size default) (ds.map (fun d => d.train_x)),
    train_y := fillAtOffsets (List.replicate train_size 0) (ds.map (fun d => d.train_y)),
    test_x := fillAtOffsets (List.replicate train_size default) (ds.map (fun d => d.test_x)),
    test_y := fillAtOffsets (List.replicate train_size 0) (ds.map (fun d => d.test_y)) }

/-- Numpy dtypes reached by the noise transforms. -/
inductive NpDType : Type
  | uint8
  | float64
  deriving DecidableEq

/-- A flat numpy array with its dtype; pixel samples carried exactly as
rationals. -/
structure NpArray where
  dtype : NpDType
  data : List ℚ
  deriving DecidableEq

/-- Embedding of `np.clip(x, 0, 255)` per sample. -/
def npClip255 (x : ℚ) : ℚ := min (max x 0) 255

/-- Embedding of `.astype(np.uint8)` per sample: truncation (equal to floor
on the clipped, non-negative inputs) wrapped modulo 256. -/
def npAstypeUint8 (x : ℚ) : ℚ := ((Int.toNat ⌊x⌋ % 256 : ℕ) : ℚ)

/-- Embedding of `UniformNoise.apply` (src/simulation/transforms/noise.py
lines 52-56): `img = img.astype(np.float) + noise; img = np.clip(img, 0,
255); return img` — the result is returned as the float array, with NO cast
back to uint8.  The per-pixel uniform draws are the `noise` parameter. -/
def uniformNoiseApply (noise : List ℚ) (img : NpArray) : NpArray :=
  { dtype := NpDType.float64,
    data := (img.data.zip noise).map (fun p => npClip255 (p.1 + p.2)) }

/-- Embedding of `GaussianNoise.apply` (noise.py lines 84-88): float
promotion, add noise, clip to [0,255], then `return img.astype(np.uint8)`. -/
def gaussianNoiseApply (noise : List ℚ) (img : NpArray) : NpArray :=
  { dtype := NpDType.uint8,
    data := (img.data.zip noise).map (fun p => npAstypeUint8 (npClip255 (p.1 + p.2))) }

/-- The alpha-induction mode actually executed by
`CharacterDataset._get_with_alpha` (simulation module lines 402-452):
its `if average_color is not None / elif alpha_zero_value is not None /
elif max_of_channel is not None / else raise RuntimeError` chain. -/
inductive AlphaMode : Type
  | averageColor (channels : List Nat) (invert : Bool)
  | alphaZero (value : Int) (invert : Bool)
  | maxChannel (channels : List Nat) (invert : Bool)
  | runtimeError
  deriving DecidableEq

/-- Mode dispatch of the static helper `_get_with_alpha`: first non-`None`
argument wins, `RuntimeError` only when all three are `None`. -/
def getWithAlphaMode (average_color : Option (List Nat))
    (alpha_zero_value : Option Int) (max_of_channel : Option (List Nat))
    (invert : Bool) : AlphaMode :=
  match average_color with
  | some chs => AlphaMode.averageColor chs invert
  | none =>
    match alpha_zero_value with
    | some v => AlphaMode.alphaZero v invert
    | none =>
      match max_of_channel with
      | some chs => AlphaMode.maxChannel chs invert
      | none => AlphaMode.runtimeError

/-- Embedding of `CharacterDataset.induce_alpha` (simulation module lines
378-400): `if all(p is None for p in [average_color, alpha_zero_value,
max_of_channel]): average_color = (0, 1, 2)` and then the `_get_with_alpha`
dispatch above. -/
def induceAlphaMode (average_color : Option (List Nat))
    (alpha_zero_value : Option Int) (max_of_channel : Option (List Nat))
    (invert : Bool) : AlphaMode :=
  let average_color :=
    if average_color.isNone && alpha_zero_value.isNone && max_of_channel.isNone
    then some [0, 1, 2] else average_color
  getWithAlphaMode average_color alpha_zero_value max_of_channel invert

/-- A grayscale image as rows of rational pixel samples. -/
abbrev Img : Type := List (List ℚ)

/-- Rescale one image by `x /= 255.`. -/
def scaleImg (im : Img) : Img := im.map (fun row => row.map (fun p => p / 255))

/-- One image of the batch tensor: scaled pixels with the trailing
single-channel axis added by `x[:, :, :, np.newaxis]`. -/
def tensorize (im : Img) : List (List (List ℚ)) :=
  im.map (fun row => row.map (fun p => [p / 255]))

/-- State of `BalancedDataGenerator` (src/digit/digit_dataset.py lines
476-506): the train images of the three sources, the batch parameters, and
the three (optionally shuffled) index cursors. -/
structure BalancedDataGenerator where
  machine_train_x : List Img
  handwritten_train_x : List Img
  out_train_x : List Img
  batch_size : Nat
  resolution : Nat
  flatten : Bool
  machine_indices : List Nat
  handwritten_indices : List Nat
  out_indices : List Nat

/-- Embedding of `BalancedDataGenerator.__len__` (lines 508-510):
`int(np.ceil(len(self.machine_dataset) * 2 / self.batch_size))`, the
ceiling division written on naturals. -/
def BalancedDataGenerator.len (g : BalancedDataGenerator) : Nat :=
  (2 * g.machine_train_x.length + g.batch_size - 1) / g.batch_size

/-- Python slice `l[a:b]`. -/
def sliceList {α : Type} (l : List α) (a b : Nat) : List α := (l.take b).drop a

/-- Fancy indexing `xs[idx]` (all indices are in range wherever this is
used; the default is never reached under the adequacy precondition). -/
def gatherImgs (xs : List Img) (idx : List Nat) : List Img :=
  idx.map (fun i => xs.getD i [])

/-- Result of `BalancedDataGenerator.__getitem__`: either the 4-axis image
tensor `(batch, res, res, 1)` or the flattened `(batch, res*res)` matrix. -/
inductive BatchX : Type
  | tensor (t : List (List (List (List ℚ))))
  | flat (t : List (List ℚ))

/-- Embedding of `BalancedDataGenerator.__getitem__` (lines 512-543):
`mini_batch_size = int(batch_size / 3)`, the third source receives
`batch_size - 2 * mini_batch_size`; each source's index window is sliced,
its images gathered and vertically stacked, scaled by `x /= 255.`, and
reshaped to `(-1, res*res)` when `flatten` else given a trailing channel
axis. -/
def BalancedDataGenerator.getItem (g : BalancedDataGenerator) (index : Nat) : BatchX :=
  let mini := g.batch_size / 3
  let last := g.batch_size - 2 * mini
  let machine_sel := sliceList g.machine_indices (index * mini) ((index + 1) * mini)
  let handwritten_sel := sliceList g.handwritten_indices (index * mini) ((index + 1) * mini)
  let out_sel := sliceList g.out_indices (index * last) ((index + 1) * last)
  let x := gatherImgs g.machine_train_x machine_sel ++
    gatherImgs g.handwritten_train_x handwritten_sel ++
    gatherImgs g.out_train_x out_sel
  let scaled := x.map scaleImg
  if g.flatten then BatchX.flat (scaled.map List.flatten)
  else BatchX.tensor (scaled.map (fun im => im.map (fun row => row.map (fun p => [p]))))

/-- One pixel sample of a stored uint8 image: a value in [0, 255]. -/
def pixInRange (p : ℚ) : Bool := decide (0 ≤ p) && decide (p ≤ 255)

/-- A stored image is a `res` by `res` grid of uint8 samples. -/
def imgOK (res : Nat) (im : Img) : Bool :=
  (im.length == res) && im.all (fun row => (row.length == res) && row.all pixInRange)

/-- Adequacy of the three sources for batch `index`: every slice window is
covered (the spec documents short windows as undefined behaviour), every
cursor entry addresses a stored image, and all stored images are uint8
grids at the generator resolution. -/
def BalancedDataGenerator.sourcesAdequate (g : BalancedDataGenerator)
    (index : Nat) : Bool :=
  let mini := g.batch_size / 3
  let last := g.batch_size - 2 * mini
  decide ((index + 1) * mini ≤ g.machine_indices.length) &&
  decide ((index + 1) * mini ≤ g.handwritten_indices.length) &&
  decide ((index + 1) * last ≤ g.out_indices.length) &&
  g.machine_indices.all (fun i => decide (i < g.machine_train_x.length)) &&
  g.handwritten_indices.all (fun i => decide (i < g.handwritten_train_x.length)) &&
  g.out_indices.all (fun i => decide (i < g.out_train_x.length)) &&
  (g.machine_train_x ++ g.handwritten_train_x ++ g.out_train_x).all (imgOK g.resolution)

/-- Shape and range contract of one image inside the yielded tensor:
`res` rows of `res` single-channel pixels, each scaled into [0, 1]. -/
def tensorImgShape (res : Nat) (im : List (List (List ℚ))) : Prop :=
  im.length = res ∧ ∀ row ∈ im, row.length = res ∧
    ∀ ch ∈ row, ch.length = 1 ∧ ∀ p ∈ ch, 0 ≤ p ∧ p ≤ 1

/-- Modelled from the spec claim wording of C2: the train-split size the
claim asserts, `round(0.9 * total_samples)`. -/
def specRoundTrainCount (n : Nat) : Int := round ((9 : ℚ) / 10 * n)

/-- A dataset in its freshly constructed state (`CharacterDataset.__init__`
defaults), used as the receiver for concrete `split` calls. -/
def emptyDataset : CharacterDataset Nat :=
  { resolution := 28
    train_x := []
    train_y := []
    test_x := []
    test_y := []
    train_indices_by_number := [(0, [])]
    test_indices_by_number := [(0, [])]
    transforms := [] }

/-- A small MNIST-like dataset (labels within 0..9, index dicts built over
range(0, 10) as `MNIST._load` does), used to evaluate the filtered
variants. -/
def mnistSmall : CharacterDataset Nat :=
  { resolution := 28
    train_x := [100, 101, 102, 103]
    train_y := [0, 1, 2, 2]
    test_x := [200]
    test_y := [0]
    train_indices_by_number := mkIndex [0, 1, 2, 2] ((List.range 10).map Int.ofNat)
    test_indices_by_number := mkIndex [0] ((List.range 10).map Int.ofNat)
    transforms := [] }

/-- A second MNIST-like dataset holding one class-0 and one class-5 train
sample. -/
def mnistTwo : CharacterDataset Nat :=
  { resolution := 28
    train_x := [10, 11]
    train_y := [0, 5]
    test_x := []
    test_y := []
    train_indices_by_number := mkIndex [0, 5] ((List.range 10).map Int.ofNat)
    test_indices_by_number := mkIndex [] ((List.range 10).map Int.ofNat)
    transforms := [] }

/-- A one-sample dataset with one queued transform sequence, used to
evaluate `apply_transforms` against the per-class index. -/
def pipelineSmall : CharacterDataset Nat :=
  { resolution := 28
    train_x := [7]
    train_y := [1]
    test_x := []
    test_y := []
    train_indices_by_number := mkIndex [1] ((List.range 10).map Int.ofNat)
    test_indices_by_number := mkIndex [] ((List.range 10).map Int.ofNat)
    transforms := [[fun x => x + 1]] }

/-- Concrete concatenation input A: 2 train and 1 test samples. -/
def concatA : CharacterDataset Nat :=
  { resolution := 28
    train_x := [1, 2]
    train_y := [1, 2]
    test_x := [3]
    test_y := [3]
    train_indices_by_number := [(0, [])]
    test_indices_by_number := [(0, [])]
    transforms := [] }

/-- Concrete concatenation input B: 2 train and 1 test samples. -/
def concatB : CharacterDataset Nat :=
  { resolution := 28
    train_x := [4, 5]
    train_y := [4, 5]
    test_x := [6]
    test_y := [6]
    train_indices_by_number := [(0, [])]
    test_indices_by_number := [(0, [])]
    transforms := [] }

/-- A concrete generator over a 900-sample machine source with batch size
12: resolution-1 uint8 images and in-range index cursors. -/
def balancedExample : BalancedDataGenerator :=
  { machine_train_x := List.replicate 900 [[0]]
    handwritten_train_x := List.replicate 4 [[0]]
    out_train_x := List.replicate 4 [[0]]
    batch_size := 12
    resolution := 1
    flatten := false
    machine_indices := [0, 1, 2, 3]
    handwritten_indices := [0, 1, 2, 3]
    out_indices := [0, 1, 2, 3] }

/-- Embedding of `ConcatDataset.__init__` of the simulation module (lines
739-783) for inputs that already share one resolution — the `d.resize(res)`
call for the later inputs returns immediately when the resolutions are
equal (line 232).  `train_size` and `test_size` are the summed row counts;
the four output containers are pre-allocated with exactly those sizes
(`np.zeros`, lines 763-766 — note the test containers correctly use
`test_size` here, unlike the digit module); each input's arrays are then
copied at a running offset, which advances by the copied block's row count
as in the source, and both per-class indices are rebuilt over the full
class range 0..19. -/
def simConcatDataset {α : Type} [Inhabited α] (ds : List (CharacterDataset α)) :
    CharacterDataset α :=
  let train_size := (ds.map (fun d => d.train_x.length)).sum
  let test_size := (ds.map (fun d => d.test_x.length)).sum
  let train_x := fillAtOffsets (List.replicate train_size default) (ds.map (fun d => d.train_x))
  let train_y := fillAtOffsets (List.replicate train_size 0) (ds.map (fun d => d.train_y))
  let test_x := fillAtOffsets (List.replicate test_size default) (ds.map (fun d => d.test_x))
  let test_y := fillAtOffsets (List.replicate test_size 0) (ds.map (fun d => d.test_y))
  { resolution := (ds.map (fun d => d.resolution)).headD 0,
    train_x := train_x, train_y := train_y, test_x := test_x, test_y := test_y,
    train_indices_by_number := mkIndex train_y ((List.range 20).map Int.ofNat),
    test_indices_by_number := mkIndex test_y ((List.range 20).map Int.ofNat),
    transforms := [] }

/-- An MNIST-like dataset holding class-0 and positive samples in both
splits, so the filtered-variant properties can be instantiated
non-vacuously on each split. -/
def mnistBoth : CharacterDataset Nat :=
  { resolution := 28
    train_x := [100, 101, 102, 103]
    train_y := [0, 1, 2, 2]
    test_x := [200, 201, 202]
    test_y := [0, 1, 2]
    train_indices_by_number := mkIndex [0, 1, 2, 2] ((List.range 10).map Int.ofNat)
    test_indices_by_number := mkIndex [0, 1, 2] ((List.range 10).map Int.ofNat)
    transforms := [] }

/-! Helper lemmas about the embedded operations. -/

theorem tile_length {α : Type} (m : Nat) (ys : List α) :
    (tile m ys).length = m * ys.length := by
  simp [tile, List.length_flatten, List.map_replicate, List.sum_replicate, smul_eq_mul]

theorem tile_get?_of_lt {α : Type} (m : Nat) (ys : List α) (j : Nat)
    (hm : 1 ≤ m) (hj : j < ys.length) : (tile m ys).get? j = ys.get? j := by
  cases m with
  | zero => omega
  | succ m =>
    simp only [tile, List.replicate_succ, List.flatten_cons, List.get?_eq_getElem?]
    rw [List.getElem?_append_left hj]

theorem sum_length_blocks {α : Type} (xs : List α) (L : List (List (α → α))) :
    (L.map (List.length ∘ fun ts => xs.map (applySeq ts))).sum = L.length * xs.length := by
  simp [Function.comp_def]

theorem mem_flatnonzero (ys : List Int) (c : Int) (j : Nat) :
    j ∈ flatnonzero ys c ↔ ys.get? j = some c := by
  simp only [flatnonzero, List.mem_map, List.mem_filter]
  constructor
  · rintro ⟨⟨i, y⟩, ⟨hmem, hy⟩, hfst⟩
    simp only [beq_iff_eq] at hy
    subst hy
    simp only at hfst
    subst hfst
    rw [List.get?_eq_getElem?]
    exact List.mem_enum_iff_getElem?.mp hmem
  · intro h
    refine ⟨(j, c), ⟨?_, by simp⟩, rfl⟩
    rw [List.get?_eq_getElem?] at h
    exact List.mem_enum_iff_getElem?.mpr h

theorem lookupIdx_mkIndex (ys : List Int) (classes : List Int) (c : Int)
    (hc : c ∈ classes) : lookupIdx (mkIndex ys classes) c = some (flatnonzero ys c) := by
  induction classes with
  | nil => cases hc
  | cons a t ih =>
    by_cases hac : a = c
    · subst hac
      simp [lookupIdx, mkIndex, List.find?]
    · rw [List.mem_cons] at hc
      rcases hc with h | h
      · exact absurd h.symm hac
      · have := ih h
        simp only [mkIndex, List.map_cons, lookupIdx, List.find?] at this ⊢
        have hbeq : (a == c) = false := by simp [hac]
        simp only [hbeq]
        simpa [lookupIdx, mkIndex] using this

theorem apply_transforms_nonempty {α : Type} (d : CharacterDataset α)
    (keep clear : Bool) (h : d.transforms.isEmpty = false) :
    (d.apply_transforms keep clear) =
      { d with
        train_x := (if keep then d.train_x else []) ++
          (d.transforms.map (fun ts => d.train_x.map (applySeq ts))).flatten,
        test_x := (if keep then d.test_x else []) ++
          (d.transforms.map (fun ts => d.test_x.map (applySeq ts))).flatten,
        train_y := tile ((if keep then 1 else 0) + d.transforms.length) d.train_y,
        test_y := tile ((if keep then 1 else 0) + d.transforms.length) d.test_y,
        transforms := if clear then [] else d.transforms } := by
  rw [CharacterDataset.apply_transforms, h]
  simp

theorem ceil_div_bounds (a b : Nat) (hb : 0 < b) :
    a ≤ (a + b - 1) / b * b ∧ (a + b - 1) / b * b < a + b := by
  constructor
  · have h2 : a + b - 1 < (a + b - 1) / b * b + b := Nat.lt_div_mul_add hb
    have h3 : a + b ≤ (a + b - 1) / b * b + b := by
      have he : a + b - 1 + 1 = a + b := by omega
      rw [← he]
      exact Nat.succ_le_of_lt h2
    exact Nat.le_of_add_le_add_right h3
  · have h1 : (a + b - 1) / b * b ≤ a + b - 1 := Nat.div_mul_le_self (a + b - 1) b
    exact Nat.lt_of_le_of_lt h1 (by omega)

theorem mem_of_mem_sliceList {α : Type} (l : List α) (a b : Nat) (x : α)
    (h : x ∈ sliceList l a b) : x ∈ l :=
  List.mem_of_mem_take (List.mem_of_mem_drop h)

theorem sliceList_window_length {α : Type} (l : List α) (i w : Nat)
    (h : (i + 1) * w ≤ l.length) :
    (sliceList l (i * w) ((i + 1) * w)).length = w := by
  have hexp : (i + 1) * w = i * w + w := by ring
  rw [hexp] at h
  simp only [sliceList, List.length_drop, List.length_take]
  rw [hexp]
  set a := i * w with ha
  omega

theorem tensorize_eq_comp (im : Img) :
    ((scaleImg im).map (fun row => row.map (fun p => [p]))) = tensorize im := by
  simp [scaleImg, tensorize, List.map_map, Function.comp_def]

theorem tensorize_shape (res : Nat) (im : Img) (h : imgOK res im = true) :
    tensorImgShape res (tensorize im) := by
  simp only [imgOK, Bool.and_eq_true, beq_iff_eq, List.all_eq_true] at h
  obtain ⟨hlen, hrows⟩ := h
  refine ⟨by simp [tensorize, hlen], ?_⟩
  intro row hrow
  simp only [tensorize, List.mem_map] at hrow
  obtain ⟨row0, hrow0, rfl⟩ := hrow
  obtain ⟨hrl, hpix⟩ := hrows row0 hrow0
  refine ⟨by simp [hrl], ?_⟩
  intro ch hch
  simp only [List.mem_map] at hch
  obtain ⟨p, hp, rfl⟩ := hch
  have hpr := hpix p hp
  simp only [pixInRange, Bool.and_eq_true, decide_eq_true_eq] at hpr
  refine ⟨rfl, ?_⟩
  intro q hq
  simp only [List.mem_singleton] at hq
  subst hq
  constructor
  · exact div_nonneg hpr.1 (by norm_num)
  · rw [div_le_one (by norm_num)]
    linarith [hpr.2]

theorem getD_mem_of_lt (xs : List Img) (i : Nat) (h : i < xs.length) :
    xs.getD i [] ∈ xs := by
  rw [List.getD_eq_getElem xs [] h]
  exact List.getElem_mem h

theorem fillAtOffsets_exact {α : Type} :
    ∀ (blocks : List (List α)) (pre suf : List α),
    suf.length = (blocks.map List.length).sum →
    (blocks.foldl (fun acc blk => (writeSlice acc.1 acc.2 blk, acc.2 + blk.length))
      (pre ++ suf, pre.length)).1 = pre ++ blocks.flatten := by
  intro blocks
  induction blocks with
  | nil =>
    intro pre suf hs
    simp only [List.map_nil, List.sum_nil] at hs
    rw [List.length_eq_zero.mp hs]
    simp
  | cons b bs ih =>
    intro pre suf hs
    simp only [List.map_cons, List.sum_cons] at hs
    have hb : b.length ≤ suf.length := by omega
    simp only [List.foldl_cons]
    have hws : writeSlice (pre ++ suf) pre.length b = (pre ++ b) ++ suf.drop b.length := by
      rw [writeSlice, List.take_left]
      have hd : (pre ++ suf).drop (pre.length + b.length) = suf.drop b.length := by
        rw [← List.drop_drop, List.drop_left]
      rw [hd, List.append_assoc]
    rw [hws]
    have hoff : pre.length + b.length = (pre ++ b).length := (List.length_append _ _).symm
    rw [hoff]
    have hsuf : (suf.drop b.length).length = (bs.map List.length).sum := by
      rw [List.length_drop]
      omega
    have hih := ih (pre ++ b) (suf.drop b.length) hsuf
    rw [hih]
    simp [List.append_assoc]

theorem fillAtOffsets_replicate {α : Type} (blocks : List (List α)) (x : α) :
    fillAtOffsets (List.replicate ((blocks.map List.length).sum) x) blocks
      = blocks.flatten := by
  have h := fillAtOffsets_exact blocks [] (List.replicate ((blocks.map List.length).sum) x)
    (by simp)
  simpa [fillAtOffsets] using h

theorem fillAtOffsets_pair {α : Type} (a b : List α) (n : Nat) (x : α)
    (hn : n = a.length + b.length) :
    fillAtOffsets (List.replicate n x) [a, b] = a ++ b := by
  have h := fillAtOffsets_replicate [a, b] x
  simp only [List.map_cons, List.map_nil, List.sum_cons, List.sum_nil, Nat.add_zero] at h
  rw [hn]
  simpa using h

theorem simConcatDataset_train_x {α : Type} [Inhabited α] (A B : CharacterDataset α) :
    (simConcatDataset [A, B]).train_x = A.train_x ++ B.train_x := by
  show fillAtOffsets (List.replicate (([A, B].map (fun d => d.train_x.length)).sum) default)
      ([A, B].map (fun d => d.train_x)) = A.train_x ++ B.train_x
  simp only [List.map_cons, List.map_nil]
  exact fillAtOffsets_pair _ _ _ _ (by simp)

theorem simConcatDataset_test_x {α : Type} [Inhabited α] (A B : CharacterDataset α) :
    (simConcatDataset [A, B]).test_x = A.test_x ++ B.test_x := by
  show fillAtOffsets (List.replicate (([A, B].map (fun d => d.test_x.length)).sum) default)
      ([A, B].map (fun d => d.test_x)) = A.test_x ++ B.test_x
  simp only [List.map_cons, List.map_nil]
  exact fillAtOffsets_pair _ _ _ _ (by simp)

/-! Claim theorems. -/

/-- C1: for a dataset whose queue holds `k = rest.length + 1 ≥ 1` transform
sequences, `apply_transforms` with `keep = true` yields exactly `n * (k+1)`
train samples and `n' * (k+1)` test samples with both label arrays tiled
`k+1` times in original order, and the first `n` train images bit-identical
to the originals; with `keep = false` it yields `n * k` and `n' * k`
samples with labels tiled `k` times. -/
theorem apply_transforms_expansion {α : Type} (d : CharacterDataset α)
    (ts : List (α → α)) (rest : List (List (α → α))) (clear : Bool) :
    ((({d with transforms := ts :: rest} : CharacterDataset α).apply_transforms true clear).train_x.length
        = d.train_x.length * (rest.length + 1 + 1)) ∧
    ((({d with transforms := ts :: rest} : CharacterDataset α).apply_transforms true clear).test_x.length
        = d.test_x.length * (rest.length + 1 + 1)) ∧
    ((({d with transforms := ts :: rest} : CharacterDataset α).apply_transforms true clear).train_y
        = tile (rest.length + 1 + 1) d.train_y) ∧
    ((({d with transforms := ts :: rest} : CharacterDataset α).apply_transforms true clear).test_y
        = tile (rest.length + 1 + 1) d.test_y) ∧
    ((({d with transforms := ts :: rest} : CharacterDataset α).apply_transforms true clear).train_x.take
        d.train_x.length = d.train_x) ∧
    ((({d with transforms := ts :: rest} : CharacterDataset α).apply_transforms false clear).train_x.length
        = d.train_x.length * (rest.length + 1)) ∧
    ((({d with transforms := ts :: rest} : CharacterDataset α).apply_transforms false clear).test_x.length
        = d.test_x.length * (rest.length + 1)) ∧
    ((({d with transforms := ts :: rest} : CharacterDataset α).apply_transforms false clear).train_y
        = tile (rest.length + 1) d.train_y) ∧
    ((({d with transforms := ts :: rest} : CharacterDataset α).apply_transforms false clear).test_y
        = tile (rest.length + 1) d.test_y) := by
  have hne : (({d with transforms := ts :: rest} : CharacterDataset α).transforms).isEmpty = false := rfl
  refine ⟨?_, ?_, ?_, ?_, ?_, ?_, ?_, ?_, ?_⟩
  · simp [apply_transforms_nonempty _ true clear hne, sum_length_blocks]
    ring
  · simp [apply_transforms_nonempty _ true clear hne, sum_length_blocks]
    ring
  · simp [apply_transforms_nonempty _ true clear hne]
    congr 1
    omega
  · simp [apply_transforms_nonempty _ true clear hne]
    congr 1
    omega
  · rw [apply_transforms_nonempty _ true clear hne]
    exact List.take_left _ _
  · simp [apply_transforms_nonempty _ false clear hne, sum_length_blocks]
    ring
  · simp [apply_transforms_nonempty _ false clear hne, sum_length_blocks]
    ring
  · simp [apply_transforms_nonempty _ false clear hne]
  · simp [apply_transforms_nonempty _ false clear hne]

/-- C2 (amended): after `_split` the train and test counts sum to the total
sample count, and the train count equals `floor(0.9 * total)` — the code
truncates with `int(all_count * 0.9)` — rather than the claimed
`round(0.9 * total)`. -/
theorem split_sizes {α : Type} (d : CharacterDataset α) (digits : List α)
    (labels : List Int) :
    (d.split digits labels).train_x.length + (d.split digits labels).test_x.length
        = digits.length ∧
    (d.split digits labels).train_x.length = 9 * digits.length / 10 := by
  have hle : 9 * digits.length / 10 ≤ digits.length := by
    calc 9 * digits.length / 10 ≤ 10 * digits.length / 10 := Nat.div_le_div_right (by omega)
    _ = digits.length := by omega
  constructor
  · simp [CharacterDataset.split, List.length_take, List.length_drop]
    omega
  · simp [CharacterDataset.split, List.length_take]
    omega

/-- C2 counterexample: for 15 loaded samples the code produces a train
split of `int(15 * 0.9) = 13` samples, while the claim as stated demands
`round(0.9 * 15) = 14`. -/
theorem split_round_counterexample :
    (emptyDataset.split (List.replicate 15 0) (List.replicate 15 0)).train_x.length = 13 ∧
    specRoundTrainCount 15 = 14 ∧
    ((13 : Int) ≠ 14) := by
  refine ⟨by decide, ?_, by decide⟩
  norm_num [specRoundTrainCount, round_eq]

/-- C3: the generator length is the ceiling of `2 * machine_size /
batch_size` (characterized by the two ceiling bounds, and equal to 150 at
machine size 900 with batch size 12), and with `flatten = false` and
adequate sources every batch is the tensor concatenation of
`floor(batch/3)` machine images, `floor(batch/3)` handwritten images and
the remaining `batch - 2*floor(batch/3)` out images — `batch_size` samples
in total, each a `res` by `res` by 1 tensor with pixels scaled into
[0, 1]. -/
theorem balanced_generator_batches (g : BalancedDataGenerator) (index : Nat) :
    ((g.machine_train_x.length = 900 → g.batch_size = 12 → g.len = 150) ∧
     (0 < g.batch_size →
       2 * g.machine_train_x.length ≤ g.len * g.batch_size ∧
       g.len * g.batch_size < 2 * g.machine_train_x.length + g.batch_size)) ∧
    (g.sourcesAdequate index = true → g.flatten = false →
      ∃ tm th tout,
        g.getItem index = BatchX.tensor (tm ++ th ++ tout) ∧
        tm.length = g.batch_size / 3 ∧
        th.length = g.batch_size / 3 ∧
        tout.length = g.batch_size - 2 * (g.batch_size / 3) ∧
        (tm ++ th ++ tout).length = g.batch_size ∧
        (∀ im ∈ tm, ∃ src ∈ g.machine_train_x, im = tensorize src) ∧
        (∀ im ∈ th, ∃ src ∈ g.handwritten_train_x, im = tensorize src) ∧
        (∀ im ∈ tout, ∃ src ∈ g.out_train_x, im = tensorize src) ∧
        (∀ im ∈ tm ++ th ++ tout, tensorImgShape g.resolution im)) := by
  constructor
  · constructor
    · intro hm hb
      rw [BalancedDataGenerator.len, hm, hb]
    · intro hb
      rw [BalancedDataGenerator.len]
      exact ceil_div_bounds _ _ hb
  · intro hok hflat
    simp only [BalancedDataGenerator.sourcesAdequate, Bool.and_eq_true, decide_eq_true_eq,
      List.all_eq_true] at hok
    obtain ⟨⟨⟨⟨⟨⟨h1, h2⟩, h3⟩, h4⟩, h5⟩, h6⟩, h7⟩ := hok
    have hmap : ∀ (l : List Img),
        (l.map scaleImg).map (fun im => im.map (fun row => row.map (fun p => [p])))
          = l.map tensorize := by
      intro l
      rw [List.map_map]
      refine List.map_congr_left ?_
      intro im _
      exact tensorize_eq_comp im
    refine ⟨(gatherImgs g.machine_train_x
        (sliceList g.machine_indices (index * (g.batch_size / 3))
          ((index + 1) * (g.batch_size / 3)))).map tensorize,
      (gatherImgs g.handwritten_train_x
        (sliceList g.handwritten_indices (index * (g.batch_size / 3))
          ((index + 1) * (g.batch_size / 3)))).map tensorize,
      (gatherImgs g.out_train_x
        (sliceList g.out_indices (index * (g.batch_size - 2 * (g.batch_size / 3)))
          ((index + 1) * (g.batch_size - 2 * (g.batch_size / 3))))).map tensorize,
      ?_, ?_, ?_, ?_, ?_, ?_, ?_, ?_, ?_⟩
    · simp only [BalancedDataGenerator.getItem, hflat, Bool.false_eq_true, if_false,
        List.map_append, hmap]
    · simp only [List.length_map, gatherImgs]
      exact sliceList_window_length _ _ _ h1
    · simp only [List.length_map, gatherImgs]
      exact sliceList_window_length _ _ _ h2
    · simp only [List.length_map, gatherImgs]
      exact sliceList_window_length _ _ _ h3
    · simp only [List.length_append, List.length_map, gatherImgs]
      rw [sliceList_window_length _ _ _ h1, sliceList_window_length _ _ _ h2,
        sliceList_window_length _ _ _ h3]
      omega
    · intro im him
      simp only [List.mem_map, gatherImgs] at him
      obtain ⟨src, hsrc, rfl⟩ := him
      obtain ⟨i, hi, rfl⟩ := hsrc
      have hil : i < g.machine_train_x.length := h4 i (mem_of_mem_sliceList _ _ _ _ hi)
      exact ⟨_, getD_mem_of_lt _ _ hil, rfl⟩
    · intro im him
      simp only [List.mem_map, gatherImgs] at him
      obtain ⟨src, hsrc, rfl⟩ := him
      obtain ⟨i, hi, rfl⟩ := hsrc
      have hil : i < g.handwritten_train_x.length := h5 i (mem_of_mem_sliceList _ _ _ _ hi)
      exact ⟨_, getD_mem_of_lt _ _ hil, rfl⟩
    · intro im him
      simp only [List.mem_map, gatherImgs] at him
      obtain ⟨src, hsrc, rfl⟩ := him
      obtain ⟨i, hi, rfl⟩ := hsrc
      have hil : i < g.out_train_x.length := h6 i (mem_of_mem_sliceList _ _ _ _ hi)
      exact ⟨_, getD_mem_of_lt _ _ hil, rfl⟩
    · intro im him
      rw [List.append_assoc] at him
      rcases List.mem_append.mp him with hm0 | hrest
      · simp only [List.mem_map, gatherImgs] at hm0
        obtain ⟨src, hsrc, rfl⟩ := hm0
        obtain ⟨i, hi, rfl⟩ := hsrc
        have hil : i < g.machine_train_x.length := h4 i (mem_of_mem_sliceList _ _ _ _ hi)
        refine tensorize_shape _ _ (h7 _ ?_)
        exact List.mem_append.mpr (Or.inl (List.mem_append.mpr (Or.inl (getD_mem_of_lt _ _ hil))))
      · rcases List.mem_append.mp hrest with hh0 | ho0
        · simp only [List.mem_map, gatherImgs] at hh0
          obtain ⟨src, hsrc, rfl⟩ := hh0
          obtain ⟨i, hi, rfl⟩ := hsrc
          have hil : i < g.handwritten_train_x.length := h5 i (mem_of_mem_sliceList _ _ _ _ hi)
          refine tensorize_shape _ _ (h7 _ ?_)
          exact List.mem_append.mpr (Or.inl (List.mem_append.mpr (Or.inr (getD_mem_of_lt _ _ hil))))
        · simp only [List.mem_map, gatherImgs] at ho0
          obtain ⟨src, hsrc, rfl⟩ := ho0
          obtain ⟨i, hi, rfl⟩ := hsrc
          have hil : i < g.out_train_x.length := h6 i (mem_of_mem_sliceList _ _ _ _ hi)
          refine tensorize_shape _ _ (h7 _ ?_)
          exact List.mem_append.mpr (Or.inr (getD_mem_of_lt _ _ hil))

set_option maxRecDepth 40000 in
/-- C3 witness: the concrete generator over a 900-image machine source with
batch size 12 satisfies every hypothesis at batch index 0, its length is
150 and batch 0 has the claimed composition and tensor shape. -/
theorem balanced_generator_batches_witness :
    balancedExample.machine_train_x.length = 900 ∧
    balancedExample.batch_size = 12 ∧
    balancedExample.len = 150 ∧
    balancedExample.sourcesAdequate 0 = true ∧
    balancedExample.flatten = false ∧
    (∃ tm th tout,
        balancedExample.getItem 0 = BatchX.tensor (tm ++ th ++ tout) ∧
        tm.length = balancedExample.batch_size / 3 ∧
        th.length = balancedExample.batch_size / 3 ∧
        tout.length = balancedExample.batch_size - 2 * (balancedExample.batch_size / 3) ∧
        (tm ++ th ++ tout).length = balancedExample.batch_size ∧
        (∀ im ∈ tm, ∃ src ∈ balancedExample.machine_train_x, im = tensorize src) ∧
        (∀ im ∈ th, ∃ src ∈ balancedExample.handwritten_train_x, im = tensorize src) ∧
        (∀ im ∈ tout, ∃ src ∈ balancedExample.out_train_x, im = tensorize src) ∧
        (∀ im ∈ tm ++ th ++ tout, tensorImgShape balancedExample.resolution im)) :=
  ⟨rfl, rfl, (balanced_generator_batches balancedExample 0).1.1 rfl rfl, by decide, rfl,
    (balanced_generator_batches balancedExample 0).2 (by decide) rfl⟩

/-- C4: for every two datasets of equal resolution, the simulation-module
`ConcatDataset` yields train images `A.train_x ++ B.train_x` — exactly
`a_train + b_train` rows, the first `a_train` bit-identical to A's train
images in original order and the remaining `b_train` identical to B's —
and the same for the test split with exactly `a_test + b_test` rows, the
containers being pre-allocated to exactly these sizes.  The digit-module
`ConcatDataset`, however, allocates its test containers with the combined
TRAIN size (lines 411-412 use `train_size`): evaluated on two concrete
datasets with 2 train and 1 test samples each, its test split has 4 rows
instead of the claimed 2. -/
theorem concat_copy_exact_and_digit_test_bug {α : Type} [Inhabited α]
    (A B : CharacterDataset α) :
    ((simConcatDataset [A, {B with resolution := A.resolution}]).train_x
        = A.train_x ++ B.train_x) ∧
    ((simConcatDataset [A, {B with resolution := A.resolution}]).train_x.length
        = A.train_x.length + B.train_x.length) ∧
    ((simConcatDataset [A, {B with resolution := A.resolution}]).train_x.take
        A.train_x.length = A.train_x) ∧
    ((simConcatDataset [A, {B with resolution := A.resolution}]).train_x.drop
        A.train_x.length = B.train_x) ∧
    ((simConcatDataset [A, {B with resolution := A.resolution}]).test_x
        = A.test_x ++ B.test_x) ∧
    ((simConcatDataset [A, {B with resolution := A.resolution}]).test_x.length
        = A.test_x.length + B.test_x.length) ∧
    ((simConcatDataset [A, {B with resolution := A.resolution}]).test_x.take
        A.test_x.length = A.test_x) ∧
    ((simConcatDataset [A, {B with resolution := A.resolution}]).test_x.drop
        A.test_x.length = B.test_x) ∧
    ((digitConcatDataset [concatA, concatB]).test_x.length
        = concatA.train_x.length + concatB.train_x.length) ∧
    ((digitConcatDataset [concatA, concatB]).test_x.length = 4) ∧
    (concatA.test_x.length + concatB.test_x.length = 2) ∧
    ((4 : Nat) ≠ 2) := by
  have htr := simConcatDataset_train_x A {B with resolution := A.resolution}
  have hte := simConcatDataset_test_x A {B with resolution := A.resolution}
  rw [htr, hte]
  refine ⟨rfl, by simp, List.take_left _ _, List.drop_left _ _,
    rfl, by simp, List.take_left _ _, List.drop_left _ _,
    by decide, by decide, by decide, by decide⟩

/-- C5 counterexample: filtering the dataset whose train labels are
`[0, 5]` through the digit-module `FilteredMNIST` keeps the single sample
whose label was 5 but stores it with label 4 — the remaining sample does
not keep the label it had before filtering. -/
theorem digit_filtered_label_shift :
    (maskFilter mnistTwo.train_x mnistTwo.train_y (fun y => decide (0 < y))).2 = [5] ∧
    (digitFilteredMNIST mnistTwo).train_y = [4] ∧
    (([4] : List Int) ≠ [5]) := by decide

/-- C5 (amended): both `FilteredMNIST` variants drop every class-0 sample
from both splits; the simulation variant keeps each remaining sample with
its original label (in each split the filtered image/label pairs form a
sublist of the original pairs, and all remaining labels are positive) and
rebuilds both per-class indices so that each class `c` in 1..9 maps to
exactly the positions holding `c`; the digit variant stores the very same
samples of both splits but with every label decremented by one. -/
theorem filtered_mnist_variants {α : Type} (d : CharacterDataset α) :
    (∀ j c, (FilteredMNIST d).train_y.get? j = some c → 0 < c) ∧
    (∀ j c, (FilteredMNIST d).test_y.get? j = some c → 0 < c) ∧
    (((FilteredMNIST d).train_x.zip (FilteredMNIST d).train_y).Sublist
        (d.train_x.zip d.train_y)) ∧
    (((FilteredMNIST d).test_x.zip (FilteredMNIST d).test_y).Sublist
        (d.test_x.zip d.test_y)) ∧
    (∀ c : Int, 1 ≤ c → c ≤ 9 →
      ∃ l, lookupIdx (FilteredMNIST d).train_indices_by_number c = some l ∧
        ∀ j, j ∈ l ↔ (FilteredMNIST d).train_y.get? j = some c) ∧
    (∀ c : Int, 1 ≤ c → c ≤ 9 →
      ∃ l, lookupIdx (FilteredMNIST d).test_indices_by_number c = some l ∧
        ∀ j, j ∈ l ↔ (FilteredMNIST d).test_y.get? j = some c) ∧
    ((digitFilteredMNIST d).train_y = (FilteredMNIST d).train_y.map (fun y => y - 1)) ∧
    ((digitFilteredMNIST d).test_y = (FilteredMNIST d).test_y.map (fun y => y - 1)) := by
  refine ⟨?_, ?_, ?_, ?_, ?_, ?_, rfl, rfl⟩
  · intro j c hget
    have hmem : c ∈ (FilteredMNIST d).train_y := List.get?_mem hget
    simp only [FilteredMNIST, maskFilter, List.mem_map, List.mem_filter] at hmem
    rcases hmem with ⟨⟨x, y⟩, ⟨hmem, hy⟩, hsnd⟩
    simp only at hsnd
    subst hsnd
    exact of_decide_eq_true hy
  · intro j c hget
    have hmem : c ∈ (FilteredMNIST d).test_y := List.get?_mem hget
    simp only [FilteredMNIST, maskFilter, List.mem_map, List.mem_filter] at hmem
    rcases hmem with ⟨⟨x, y⟩, ⟨hmem, hy⟩, hsnd⟩
    simp only at hsnd
    subst hsnd
    exact of_decide_eq_true hy
  · show ((FilteredMNIST d).train_x.zip (FilteredMNIST d).train_y).Sublist
        (d.train_x.zip d.train_y)
    simp only [FilteredMNIST, maskFilter]
    rw [← List.unzip_fst, ← List.unzip_snd, List.zip_unzip]
    exact List.filter_sublist _
  · show ((FilteredMNIST d).test_x.zip (FilteredMNIST d).test_y).Sublist
        (d.test_x.zip d.test_y)
    simp only [FilteredMNIST, maskFilter]
    rw [← List.unzip_fst, ← List.unzip_snd, List.zip_unzip]
    exact List.filter_sublist _
  · intro c h1 h9
    refine ⟨flatnonzero (FilteredMNIST d).train_y c, ?_, fun j => mem_flatnonzero _ _ _⟩
    have hcmem : c ∈ (List.range' 1 9).map Int.ofNat := by
      simp only [List.mem_map, List.mem_range'_1]
      exact ⟨c.toNat, by omega, by simp only [Int.ofNat_eq_natCast]; omega⟩
    exact lookupIdx_mkIndex _ _ _ hcmem
  · intro c h1 h9
    refine ⟨flatnonzero (FilteredMNIST d).test_y c, ?_, fun j => mem_flatnonzero _ _ _⟩
    have hcmem : c ∈ (List.range' 1 9).map Int.ofNat := by
      simp only [List.mem_map, List.mem_range'_1]
      exact ⟨c.toNat, by omega, by simp only [Int.ofNat_eq_natCast]; omega⟩
    exact lookupIdx_mkIndex _ _ _ hcmem

/-- C5 witness: the amended properties instantiated on both splits of the
concrete MNIST-like dataset with train labels `[0, 1, 2, 2]` and test
labels `[0, 1, 2]`. -/
theorem filtered_mnist_variants_witness :
    ((FilteredMNIST mnistBoth).train_y.get? 0 = some 1 ∧ 0 < (1 : Int)) ∧
    ((FilteredMNIST mnistBoth).test_y.get? 0 = some 1 ∧ 0 < (1 : Int)) ∧
    (((FilteredMNIST mnistBoth).train_x.zip (FilteredMNIST mnistBoth).train_y).Sublist
        (mnistBoth.train_x.zip mnistBoth.train_y)) ∧
    (((FilteredMNIST mnistBoth).test_x.zip (FilteredMNIST mnistBoth).test_y).Sublist
        (mnistBoth.test_x.zip mnistBoth.test_y)) ∧
    (∃ l, lookupIdx (FilteredMNIST mnistBoth).train_indices_by_number 2 = some l ∧
        ∀ j, j ∈ l ↔ (FilteredMNIST mnistBoth).train_y.get? j = some 2) ∧
    (∃ l, lookupIdx (FilteredMNIST mnistBoth).test_indices_by_number 2 = some l ∧
        ∀ j, j ∈ l ↔ (FilteredMNIST mnistBoth).test_y.get? j = some 2) ∧
    ((digitFilteredMNIST mnistBoth).train_y
        = (FilteredMNIST mnistBoth).train_y.map (fun y => y - 1)) ∧
    ((digitFilteredMNIST mnistBoth).test_y
        = (FilteredMNIST mnistBoth).test_y.map (fun y => y - 1)) :=
  ⟨⟨by decide, (filtered_mnist_variants mnistBoth).1 0 1 (by decide)⟩,
    ⟨by decide, (filtered_mnist_variants mnistBoth).2.1 0 1 (by decide)⟩,
    (filtered_mnist_variants mnistBoth).2.2.1,
    (filtered_mnist_variants mnistBoth).2.2.2.1,
    (filtered_mnist_variants mnistBoth).2.2.2.2.1 2 (by norm_num) (by norm_num),
    (filtered_mnist_variants mnistBoth).2.2.2.2.2.1 2 (by norm_num) (by norm_num),
    (filtered_mnist_variants mnistBoth).2.2.2.2.2.2.1,
    (filtered_mnist_variants mnistBoth).2.2.2.2.2.2.2⟩

/-- C6: evaluation at the failing input.  On the simulation-module
`FilteredMNIST` built from an MNIST base with train labels `[0, 1, 2, 2]`:
the filtered labels are `[1, 2, 2]`, yet `get_random(1)` fails with a
`KeyError` (it looks up `train_indices_by_number[digit - 1] = index[0]`,
absent from the dict keyed by the actual labels 1..9) although class 1 is
present, and `get_random(2)` draws from `[0]` — the position list of class
1 (position 0 holds label 1) — instead of class 2's own list `[1, 2]`.
`get_ordered` itself behaves as the claim says: in-range lookups return the
positional sample, an out-of-range index gives `IndexError`, an absent
class gives `KeyError`. -/
theorem filtered_get_random_eval :
    (FilteredMNIST mnistSmall).train_y = [1, 2, 2] ∧
    filteredGetRandomPositions (FilteredMNIST mnistSmall) 1 = Except.error PyErr.keyError ∧
    filteredGetRandomPositions (FilteredMNIST mnistSmall) 2 = Except.ok [0] ∧
    flatnonzero (FilteredMNIST mnistSmall).train_y 2 = [1, 2] ∧
    (FilteredMNIST mnistSmall).train_y.get? 0 = some 1 ∧
    (FilteredMNIST mnistSmall).get_ordered 2 0 = Except.ok 102 ∧
    (FilteredMNIST mnistSmall).get_ordered 2 1 = Except.ok 103 ∧
    (FilteredMNIST mnistSmall).get_ordered 2 2 = Except.error PyErr.indexError ∧
    (FilteredMNIST mnistSmall).get_ordered 0 0 = Except.error PyErr.keyError := by decide

/-- C7: evaluation at the failing input.  `UniformNoise.apply` on the
one-pixel uint8 image `[0]` with noise draw 1/2 returns the clipped float
array — dtype float64, pixel value 1/2, which is not an 8-bit sample (not
even an integer) — because the source lacks the `.astype(np.uint8)` cast
that its own docstring describes and that `GaussianNoise.apply` (shown
alongside: dtype uint8, value 0) performs. -/
theorem uniform_noise_dtype_eval :
    (uniformNoiseApply [1/2] { dtype := NpDType.uint8, data := [0] }).dtype = NpDType.float64 ∧
    NpDType.float64 ≠ NpDType.uint8 ∧
    (uniformNoiseApply [1/2] { dtype := NpDType.uint8, data := [0] }).data = [1/2] ∧
    (∀ k : Int, ((1 : ℚ)/2) ≠ (k : ℚ)) ∧
    (gaussianNoiseApply [1/2] { dtype := NpDType.uint8, data := [0] }).dtype = NpDType.uint8 ∧
    (gaussianNoiseApply [1/2] { dtype := NpDType.uint8, data := [0] }).data = [0] := by
  refine ⟨rfl, by decide, ?_, ?_, rfl, ?_⟩
  · show [npClip255 ((0:ℚ) + 1/2)] = [1/2]
    rw [npClip255]
    rw [max_eq_left (by norm_num), min_eq_left (by norm_num)]
    norm_num
  · intro k h
    rw [div_eq_iff (by norm_num : (2:ℚ) ≠ 0)] at h
    have h2 : ((1 : Int) : ℚ) = ((k * 2 : Int) : ℚ) := by push_cast; exact h
    have h3 : (1 : Int) = k * 2 := Int.cast_injective h2
    omega
  · show [npAstypeUint8 (npClip255 ((0:ℚ) + 1/2))] = [0]
    rw [npClip255]
    rw [max_eq_left (by norm_num), min_eq_left (by norm_num)]
    rw [npAstypeUint8]
    have hf : ⌊(0:ℚ) + 1/2⌋ = 0 := by
      rw [Int.floor_eq_zero_iff]
      constructor <;> norm_num
    rw [hf]
    norm_num

/-- C8 counterexample: on the one-sample dataset of class 1 with one queued
transform sequence, `apply_transforms(keep=True)` tiles the labels to
`[1, 1]`, so class 1 now occupies positions 0 and 1 — but the per-class
index still maps class 1 to `[0]` only: the index is not kept consistent
with the updated label array. -/
theorem index_stale_after_apply_transforms :
    (pipelineSmall.apply_transforms true true).train_y = [1, 1] ∧
    flatnonzero (pipelineSmall.apply_transforms true true).train_y 1 = [0, 1] ∧
    lookupIdx (pipelineSmall.apply_transforms true true).train_indices_by_number 1 = some [0] ∧
    ((some [0] : Option (List Nat)) ≠ some [0, 1]) := by decide

/-- C8 (amended): `apply_transforms` leaves both per-class indices
completely unchanged — it never rebuilds them from the tiled labels.  What
survives is one-sided consistency: any position the old index listed for a
class still holds that class in the tiled label array (the original block
is preserved), but positions of the new copies are missing from the
index. -/
theorem apply_transforms_index_frame {α : Type} (d : CharacterDataset α)
    (keep clear : Bool) (c : Int) (l : List Nat) :
    ((d.apply_transforms keep clear).train_indices_by_number = d.train_indices_by_number) ∧
    ((d.apply_transforms keep clear).test_indices_by_number = d.test_indices_by_number) ∧
    (lookupIdx d.train_indices_by_number c = some l →
      (∀ j ∈ l, d.train_y.get? j = some c) →
      ∀ j ∈ l, (d.apply_transforms keep clear).train_y.get? j = some c) := by
  by_cases hemp : d.transforms.isEmpty
  · refine ⟨?_, ?_, ?_⟩
    · simp [CharacterDataset.apply_transforms, hemp]
    · simp [CharacterDataset.apply_transforms, hemp]
    · intro hlook hlab j hj
      simp only [CharacterDataset.apply_transforms, hemp, if_true]
      exact hlab j hj
  · rw [Bool.not_eq_true] at hemp
    have hlen : 1 ≤ d.transforms.length := by
      rcases hd : d.transforms with _ | ⟨a, t⟩
      · rw [hd] at hemp
        simp at hemp
      · simp
    refine ⟨?_, ?_, ?_⟩
    · rw [CharacterDataset.apply_transforms, hemp]
      simp
    · rw [CharacterDataset.apply_transforms, hemp]
      simp
    · intro hlook hlab j hj
      have hy := hlab j hj
      have hjlt : j < d.train_y.length := by
        rcases List.get?_eq_some.mp hy with ⟨hlt, _⟩
        exact hlt
      rw [CharacterDataset.apply_transforms, hemp]
      simp only [Bool.false_eq_true, if_false]
      have hreps : 1 ≤ (if keep then 1 else 0) + d.transforms.length := by
        cases keep
        · simpa using hlen
        · simp
      rw [tile_get?_of_lt _ _ _ hreps hjlt]
      exact hy

/-- C8 witness: the frame property instantiated on the concrete one-sample
pipeline dataset, whose index maps class 1 to position 0. -/
theorem apply_transforms_index_frame_witness :
    (lookupIdx pipelineSmall.train_indices_by_number 1 = some [0]) ∧
    (∀ j ∈ [0], pipelineSmall.train_y.get? j = some 1) ∧
    ((pipelineSmall.apply_transforms true true).train_indices_by_number
        = pipelineSmall.train_indices_by_number) ∧
    (∀ j ∈ [0], (pipelineSmall.apply_transforms true true).train_y.get? j = some 1) :=
  ⟨by decide, by decide, (apply_transforms_index_frame pipelineSmall true true 1 [0]).1,
    (apply_transforms_index_frame pipelineSmall true true 1 [0]).2.2 (by decide) (by decide)⟩

/-- C9 counterexample: `induce_alpha` with no mode supplied proceeds with
the default average-of-channels mode `(0, 1, 2)` instead of failing, and
with all three modes supplied it silently executes the average mode — in
neither case is a fatal invalid-argument error raised. -/
theorem induce_alpha_no_fatal_counterexample :
    induceAlphaMode none none none true = AlphaMode.averageColor [0, 1, 2] true ∧
    induceAlphaMode (some [0]) (some 7) (some [1]) true = AlphaMode.averageColor [0] true ∧
    induceAlphaMode none none none true ≠ AlphaMode.runtimeError ∧
    induceAlphaMode (some [0]) (some 7) (some [1]) true ≠ AlphaMode.runtimeError := by decide

/-- C9 (amended): `induce_alpha` never reaches the fatal `RuntimeError`
branch: with no mode supplied it defaults to average-of-channels
`(0, 1, 2)`; otherwise the first supplied mode in the fixed precedence
average-color, alpha-zero-value, max-of-channel is chosen silently. -/
theorem induce_alpha_mode_selection (az : Option Int) (mx : Option (List Nat)) (inv : Bool) :
    (∀ avg : Option (List Nat), induceAlphaMode avg az mx inv ≠ AlphaMode.runtimeError) ∧
    induceAlphaMode none none none inv = AlphaMode.averageColor [0, 1, 2] inv ∧
    (∀ chs, induceAlphaMode (some chs) az mx inv = AlphaMode.averageColor chs inv) ∧
    (∀ v, induceAlphaMode none (some v) mx inv = AlphaMode.alphaZero v inv) ∧
    (∀ chs, induceAlphaMode none none (some chs) inv = AlphaMode.maxChannel chs inv) := by
  refine ⟨?_, rfl, ?_, ?_, ?_⟩
  · intro avg
    cases avg <;> cases az <;> cases mx <;>
      simp [induceAlphaMode, getWithAlphaMode]
  · intro chs
    simp [induceAlphaMode, getWithAlphaMode]
  · intro v
    cases mx <;> simp [induceAlphaMode, getWithAlphaMode]
  · intro chs
    simp [induceAlphaMode, getWithAlphaMode]

/-- C10: on a dataset whose transform queue is empty, `apply_transforms`
returns before touching anything, for any `keep`/`clear` arguments: the
whole dataset state — images, labels, resolution, per-class indices — is
exactly as before the call. -/
theorem apply_transforms_empty_queue_noop {α : Type} (d : CharacterDataset α)
    (keep clear : Bool) :
    ({d with transforms := []} : CharacterDataset α).apply_transforms keep clear
      = {d with transforms := []} := rfl
